import Mathlib

set_option autoImplicit false

namespace DoingJetstream

/-! Shallow embedding of the doing-jetstream worker (`src/index.ts`, `src/types.ts`).

The Durable Object `JetstreamProcessor` keeps an in-memory `StoredStats` record,
updates it on every inbound Jetstream event, enqueues commit events to a
Cloudflare Queue, and periodically flushes stats to durable storage.  The queue
consumer delivers each queued event to a webhook by HTTP POST.  We model the
stats record, the per-event classifier `processEvent`, the reset operation, the
subscribe-URL cursor parameter, the reconnect backoff delay, the queue-consumer
batch handler, and the webhook request builder. -/

/-- Kind of a Jetstream event: `commit`, `identity`, or `account`
(field `kind` of `JetstreamEvent` in `src/types.ts`). -/
inductive Kind where
  | commit
  | identity
  | account
  deriving DecidableEq, Repr

/-- Commit payload of a Jetstream event (the `commit` field in `src/types.ts`). -/
structure Commit where
  rev : String
  operation : String
  collection : String
  rkey : String
  deriving DecidableEq, Repr

/-- A Jetstream event (`JetstreamEvent` in `src/types.ts`).  The `commit` field
is optional; `time_us` is the microsecond timestamp used as the resume cursor. -/
structure JetstreamEvent where
  did : String
  time_us : Int
  kind : Kind
  commit : Option Commit
  deriving DecidableEq, Repr

/-- A JavaScript object used as a string-to-number map
(the `Record` of collection name to count in `StoredStats.eventCounts`),
modelled as an association list of key/value pairs. -/
abbrev EventCounts := List (String × Nat)

/-- Reading `m[k] || 0` on a JavaScript object: the value stored at key `k`,
or `0` when the key is absent. -/
def getCount : EventCounts → String → Nat
  | [], _ => 0
  | (k', v) :: rest, k => if k' = k then v else getCount rest k

/-- The update `m[k] = (m[k] || 0) + 1` on a JavaScript object: bump the entry
at key `k` in place, inserting it with value 1 when absent. -/
def incr : EventCounts → String → EventCounts
  | [], k => [(k, 1)]
  | (k', v) :: rest, k =>
      if k' = k then (k', v + 1) :: rest else (k', v) :: incr rest k

/-- Sum of all values of the map (compared against `totalEvents` by the spec). -/
def sumCounts (m : EventCounts) : Nat := (m.map Prod.snd).sum

/-- The persisted aggregate record (`StoredStats` in `src/types.ts`). -/
structure StoredStats where
  cursor : Int
  eventCounts : EventCounts
  totalEvents : Nat
  totalReceived : Nat
  lastEventTime : String
  deriving DecidableEq, Repr

/-- The zeroed stats record as built in the `JetstreamProcessor` field
initializer and in `resetStats`; `now` stands for `new Date().toISOString()`. -/
def zeroStats (now : String) : StoredStats :=
  { cursor := 0, eventCounts := [], totalEvents := 0, totalReceived := 0,
    lastEventTime := now }

/-- The stats mutation performed by `JetstreamProcessor.processEvent`
(`src/index.ts` lines 126-145): always set `cursor` to the event's `time_us`
and bump `totalReceived`; for commit events additionally bump `totalEvents`,
set `lastEventTime`, and, when `event.commit?.collection` is truthy (commit
present and collection a nonempty string), bump that collection's entry of
`eventCounts`. -/
def processEventStats (now : String) (s : StoredStats) (e : JetstreamEvent) :
    StoredStats :=
  let s1 := { s with cursor := e.time_us, totalReceived := s.totalReceived + 1 }
  if e.kind ≠ Kind.commit then s1
  else
    let s2 := { s1 with totalEvents := s1.totalEvents + 1, lastEventTime := now }
    match e.commit with
    | some cm =>
        if cm.collection ≠ "" then
          { s2 with eventCounts := incr s2.eventCounts cm.collection }
        else s2
    | none => s2

/-- A message placed on the Cloudflare Queue (`QueueMessage` in `src/types.ts`). -/
structure QueueMessage where
  event : JetstreamEvent
  queuedAt : String
  retryCount : Nat
  deriving DecidableEq, Repr

/-- State of the Durable Object visible to the embedding: the in-memory stats,
the last record written to `ctx.storage` under the key `stats`, and the list
of messages successfully sent to the queue. -/
structure ProcState where
  stats : StoredStats
  stored : StoredStats
  queued : List QueueMessage
  deriving DecidableEq, Repr

/-- Full `processEvent` (`src/index.ts` lines 126-168).  `enqueueOk` records
whether `this.env.JETSTREAM_QUEUE.send` succeeds; a failed send is caught and
only logged, so it changes nothing but the queue.  Non-commit events return
right after the cursor/`totalReceived` update, before the enqueue and before
the every-100-events flush. -/
def processEvent (enqueueOk : Bool) (now : String) (st : ProcState)
    (e : JetstreamEvent) : ProcState :=
  let s := processEventStats now st.stats e
  if e.kind ≠ Kind.commit then { st with stats := s }
  else
    let queued :=
      if enqueueOk then st.queued ++ [{ event := e, queuedAt := now, retryCount := 0 }]
      else st.queued
    let stored := if s.totalEvents % 100 = 0 then s else st.stored
    { stats := s, stored := stored, queued := queued }

/-- Process a list of events in order, tracking only the stats record; each
event comes with the wall-clock string observed while processing it. -/
def runStats : StoredStats → List (String × JetstreamEvent) → StoredStats
  | s, [] => s
  | s, (now, e) :: rest => runStats (processEventStats now s e) rest

/-- Process a list of events in order through the full `processEvent`; each
event comes with its enqueue outcome and wall-clock string. -/
def runProc : ProcState → List (Bool × String × JetstreamEvent) → ProcState
  | st, [] => st
  | st, (ok, now, e) :: rest => runProc (processEvent ok now st e) rest

/-- Stats-only run of a flagged event list (ignores the enqueue flags). -/
def runStatsFlag : StoredStats → List (Bool × String × JetstreamEvent) → StoredStats
  | s, [] => s
  | s, (_, now, e) :: rest => runStatsFlag (processEventStats now s e) rest

/-- `JetstreamProcessor.resetStats` (`src/index.ts` lines 182-191): replace the
in-memory record with zero values and immediately write it to storage. -/
def resetStats (now : String) (st : ProcState) : ProcState :=
  { st with stats := zeroStats now, stored := zeroStats now }

/-- The `cursor` query parameter attached to the Jetstream subscribe URL by
`connectToJetstream` (`src/index.ts` lines 62-67): present exactly when the
stored cursor is positive, and then equal to the stored cursor minus the fixed
5-second (5,000,000 microsecond) backward buffer. -/
def cursorParam (storedCursor : Int) : Option Int :=
  if storedCursor > 0 then some (storedCursor - 5 * 1000 * 1000) else none

/-- The reconnect delay computed by `scheduleReconnect` (`src/index.ts` lines
111-124) for a draw `r` of `Math.random()`: `min(1000 * 2^r, 30000)`
milliseconds, modelled over the reals. -/
noncomputable def reconnectDelay (r : ℝ) : ℝ :=
  min (1000 * (2 : ℝ) ^ r) 30000

/-- Outcome of the webhook `fetch` as observed by `sendToWebhook`: an HTTP
response carrying a status code, or a transport-level failure (the `fetch`
call itself throws). -/
inductive WebhookOutcome where
  | httpStatus (code : Nat)
  | transportError
  deriving DecidableEq, Repr

/-- The Fetch API's `response.ok`: status code in the range 200 to 299. -/
def responseOk (code : Nat) : Bool := 200 ≤ code && code < 300

/-- Control flow of `sendToWebhook` (`src/index.ts` lines 417-433): it returns
normally exactly when the response is ok, and throws on a non-ok status or on
a transport error. -/
def sendToWebhook (o : WebhookOutcome) : Except String Unit :=
  match o with
  | WebhookOutcome.httpStatus code =>
      if responseOk code then Except.ok () else Except.error "Webhook request failed"
  | WebhookOutcome.transportError => Except.error "fetch failed"

/-- What the queue consumer does with one message: `message.ack()` or
`message.retry()`. -/
inductive MsgAction where
  | ack
  | retry
  deriving DecidableEq, Repr

/-- Per-message branch of the `queue` handler (`src/index.ts` lines 393-410):
ack when `sendToWebhook` returns normally, retry when it throws. -/
def handleMessage (o : WebhookOutcome) : MsgAction :=
  match sendToWebhook o with
  | Except.ok _ => MsgAction.ack
  | Except.error _ => MsgAction.retry

/-- The `queue` batch handler (`src/index.ts` lines 389-414): every message of
the batch is handled independently of its siblings. -/
def processBatch (batch : List WebhookOutcome) : List MsgAction :=
  batch.map handleMessage

/-- An outbound HTTP request as assembled by `sendToWebhook`. -/
structure WebhookRequest where
  url : String
  method : String
  headers : List (String × String)
  body : String
  deriving DecidableEq, Repr

/-- The request built by `sendToWebhook` (`src/index.ts` lines 417-427): the
URL is the hardcoded constant, the method is POST, the headers are exactly
`Content-Type` and `User-Agent`, and the body is `JSON.stringify(event)`
(passed in here as the already-serialized string). -/
def sendToWebhookRequest (eventJson : String) : WebhookRequest :=
  { url := "https://doingtunnel.doing.work/api/webhooks/jetstream-event"
    method := "POST"
    headers := [("Content-Type", "application/json"),
                ("User-Agent", "Jetstream-Unified/1.0")]
    body := eventJson }

/-- Maximum `time_us` over a list of events, starting from the zero cursor. -/
def maxTimeUs (l : List JetstreamEvent) : Int :=
  l.foldl (fun a e => max a e.time_us) 0

/-- Whether an event is a commit whose payload names collection `c`. -/
def isCommitTo (c : String) (e : JetstreamEvent) : Bool :=
  (e.kind == Kind.commit) &&
    (match e.commit with
     | some cm => cm.collection == c
     | none => false)

/-- Number of events of a timed list that are commits to collection `c`. -/
def countCommitsTo (c : String) (l : List (String × JetstreamEvent)) : Nat :=
  l.countP (fun p => isCommitTo c p.2)

/-- Whether the event's commit payload is present with a nonempty collection
(the truthiness test `event.commit?.collection` of `src/index.ts` line 141). -/
def hasNonemptyCollection (e : JetstreamEvent) : Bool :=
  match e.commit with
  | some cm => cm.collection != ""
  | none => false

/-- A sample non-commit event of kind `account`. -/
def evAccount (t : Int) : JetstreamEvent :=
  { did := "did:plc:a", time_us := t, kind := Kind.account, commit := none }

/-- A sample non-commit event of kind `identity`. -/
def evIdentity (t : Int) : JetstreamEvent :=
  { did := "did:plc:b", time_us := t, kind := Kind.identity, commit := none }

/-- A sample commit event to collection `c`. -/
def commitEvent (c : String) (t : Int) : JetstreamEvent :=
  { did := "did:plc:c", time_us := t, kind := Kind.commit,
    commit := some { rev := "rev1", operation := "create", collection := c,
                     rkey := "rkey1" } }

/-- Sample event sequence: an account event, a commit, and an identity event. -/
def exSeq : List (String × JetstreamEvent) :=
  [("t1", evAccount 50), ("t2", commitEvent "blue.2048.game" 100),
   ("t3", evIdentity 150)]

/-! Helper lemmas about the classifier. -/

theorem processEventStats_cursor (now : String) (s : StoredStats) (e : JetstreamEvent) :
    (processEventStats now s e).cursor = e.time_us := by
  simp only [processEventStats]
  split
  · rfl
  · split
    · split
      · rfl
      · rfl
    · rfl

theorem processEventStats_totalReceived (now : String) (s : StoredStats) (e : JetstreamEvent) :
    (processEventStats now s e).totalReceived = s.totalReceived + 1 := by
  simp only [processEventStats]
  split
  · rfl
  · split
    · split
      · rfl
      · rfl
    · rfl

theorem processEventStats_totalEvents (now : String) (s : StoredStats) (e : JetstreamEvent) :
    (processEventStats now s e).totalEvents =
      if e.kind = Kind.commit then s.totalEvents + 1 else s.totalEvents := by
  simp only [processEventStats]
  split
  · simp_all
  · split
    · split
      · simp_all
      · simp_all
    · simp_all

theorem getCount_incr_self (m : EventCounts) (k : String) :
    getCount (incr m k) k = getCount m k + 1 := by
  induction m with
  | nil => simp [incr, getCount]
  | cons p rest ih =>
      obtain ⟨k', v⟩ := p
      by_cases h : k' = k
      · simp [incr, getCount, h]
      · simp [incr, getCount, h, ih]

theorem getCount_incr_ne (m : EventCounts) (k c : String) (h : k ≠ c) :
    getCount (incr m k) c = getCount m c := by
  induction m with
  | nil => simp [incr, getCount, h]
  | cons p rest ih =>
      obtain ⟨k', v⟩ := p
      by_cases h' : k' = k
      · subst h'
        simp [incr, getCount, h]
      · simp [incr, getCount, h', ih]

theorem sumCounts_incr (m : EventCounts) (k : String) :
    sumCounts (incr m k) = sumCounts m + 1 := by
  induction m with
  | nil => simp [incr, sumCounts]
  | cons p rest ih =>
      obtain ⟨k', v⟩ := p
      by_cases h : k' = k
      · simp [incr, sumCounts, h]
        omega
      · simp [incr, sumCounts, h] at ih ⊢
        omega

theorem processEventStats_getCount (now : String) (s : StoredStats) (e : JetstreamEvent)
    (c : String) (hc : c ≠ "") :
    getCount (processEventStats now s e).eventCounts c =
      getCount s.eventCounts c + (if isCommitTo c e then 1 else 0) := by
  obtain ⟨did, t, kind, cmo⟩ := e
  cases kind with
  | commit =>
      cases cmo with
      | none => simp [processEventStats, isCommitTo]
      | some cm =>
          by_cases hcol : cm.collection = c
          · subst hcol
            simp [processEventStats, isCommitTo, hc, getCount_incr_self, beq_iff_eq]
          · by_cases hne : cm.collection = ""
            · simp [processEventStats, isCommitTo, hne, Ne.symm hc, hcol, beq_iff_eq]
            · simp [processEventStats, isCommitTo, hne, hcol, beq_iff_eq,
                getCount_incr_ne s.eventCounts cm.collection c hcol]
  | identity => simp [processEventStats, isCommitTo, beq_iff_eq]
  | account => simp [processEventStats, isCommitTo, beq_iff_eq]

theorem processEventStats_eventCounts_of_not_commit (now : String) (s : StoredStats)
    (e : JetstreamEvent) (h : ¬ (e.kind = Kind.commit ∧ hasNonemptyCollection e = true)) :
    (processEventStats now s e).eventCounts = s.eventCounts := by
  obtain ⟨did, t, kind, cmo⟩ := e
  cases kind with
  | commit =>
      cases cmo with
      | none => simp [processEventStats]
      | some cm =>
          simp only [hasNonemptyCollection, not_and] at h
          have hcol : cm.collection = "" := by
            by_contra hne
            exact h trivial (bne_iff_ne.mpr hne)
          simp [processEventStats, hcol]
  | identity => simp [processEventStats]
  | account => simp [processEventStats]

theorem processEventStats_sum_totalEvents (now : String) (s : StoredStats)
    (e : JetstreamEvent)
    (he : e.kind = Kind.commit → hasNonemptyCollection e = true)
    (h : sumCounts s.eventCounts = s.totalEvents) :
    sumCounts (processEventStats now s e).eventCounts =
      (processEventStats now s e).totalEvents := by
  obtain ⟨did, t, kind, cmo⟩ := e
  cases kind with
  | commit =>
      cases cmo with
      | none => exact absurd (he rfl) (by simp [hasNonemptyCollection])
      | some cm =>
          have hne : cm.collection ≠ "" := by
            have hx := he rfl
            simpa [hasNonemptyCollection, bne_iff_ne] using hx
          simp [processEventStats, hne, sumCounts_incr, h]
  | identity => simp [processEventStats, h]
  | account => simp [processEventStats, h]

theorem processEvent_stats (ok : Bool) (now : String) (st : ProcState)
    (e : JetstreamEvent) :
    (processEvent ok now st e).stats = processEventStats now st.stats e := by
  simp only [processEvent]
  split <;> rfl

theorem processEvent_queued_false (now : String) (st : ProcState)
    (e : JetstreamEvent) :
    (processEvent false now st e).queued = st.queued := by
  simp only [processEvent]
  split <;> rfl

theorem runProc_stats (l : List (Bool × String × JetstreamEvent)) (st : ProcState) :
    (runProc st l).stats = runStatsFlag st.stats l := by
  induction l generalizing st with
  | nil => rfl
  | cons p rest ih =>
      obtain ⟨ok, now, e⟩ := p
      simp only [runProc, runStatsFlag]
      rw [ih, processEvent_stats]

theorem runStats_append (s : StoredStats) (l₁ l₂ : List (String × JetstreamEvent)) :
    runStats s (l₁ ++ l₂) = runStats (runStats s l₁) l₂ := by
  induction l₁ generalizing s with
  | nil => rfl
  | cons p rest ih =>
      obtain ⟨now, e⟩ := p
      simp only [List.cons_append, runStats]
      exact ih (processEventStats now s e)

theorem runStats_getCount (s : StoredStats) (l : List (String × JetstreamEvent))
    (c : String) (hc : c ≠ "") :
    getCount (runStats s l).eventCounts c =
      getCount s.eventCounts c + countCommitsTo c l := by
  induction l generalizing s with
  | nil => simp [runStats, countCommitsTo]
  | cons p rest ih =>
      obtain ⟨now, e⟩ := p
      simp only [runStats, countCommitsTo, List.countP_cons]
      rw [ih (processEventStats now s e), processEventStats_getCount now s e c hc]
      simp only [countCommitsTo]
      split <;> omega

theorem runStats_sum_totalEvents :
    ∀ (l : List (String × JetstreamEvent)) (s : StoredStats),
      (∀ p ∈ l, p.2.kind = Kind.commit → hasNonemptyCollection p.2 = true) →
      sumCounts s.eventCounts = s.totalEvents →
      sumCounts (runStats s l).eventCounts = (runStats s l).totalEvents := by
  intro l
  induction l with
  | nil =>
      intro s _ h
      simpa [runStats] using h
  | cons p rest ih =>
      intro s hl h
      obtain ⟨now, e⟩ := p
      simp only [runStats]
      exact ih _ (fun q hq => hl q (List.mem_cons_of_mem _ hq))
        (processEventStats_sum_totalEvents now s e
          (hl (now, e) (List.mem_cons_self _ _)) h)

theorem handleMessage_eq_ack (o : WebhookOutcome) :
    handleMessage o = MsgAction.ack ↔
      ∃ code, o = WebhookOutcome.httpStatus code ∧ responseOk code = true := by
  cases o with
  | httpStatus code =>
      by_cases h : responseOk code = true
      · simp [handleMessage, sendToWebhook, h]
      · simp [handleMessage, sendToWebhook, h]
  | transportError => simp [handleMessage, sendToWebhook]

/-! Claim theorems. -/

/-- C1 (counterexample): the claim that `stats.cursor` equals the maximum
`time_us` over all events seen so far fails on the code, which assigns
`this.stats.cursor = event.time_us` unconditionally.  Processing an event with
`time_us = 100` followed by one with `time_us = 50` (as in a reconnect replay
window) from the zero state leaves the cursor at 50, while the maximum is 100. -/
theorem cursor_not_max_counterexample :
    (runStats (zeroStats "t0") [("t1", evAccount 100), ("t2", evAccount 50)]).cursor ≠
      maxTimeUs [evAccount 100, evAccount 50] := by decide

/-- C1 (amended): after processing any sequence of inbound events,
`stats.cursor` equals the `time_us` of the last event processed, regardless of
each event's `kind`; this coincides with the maximum `time_us` only when the
timestamps are non-decreasing. -/
theorem cursor_eq_last_time_us (s : StoredStats)
    (l : List (String × JetstreamEvent)) (now : String) (e : JetstreamEvent) :
    (runStats s (l ++ [(now, e)])).cursor = e.time_us := by
  rw [runStats_append]
  simp [runStats, processEventStats_cursor]

/-- C2: over any sequence of events and from any initial stats,
`totalReceived` grows by exactly the number of events processed, `totalEvents`
grows by exactly the number of events of kind `commit`, and the invariant
`totalEvents ≤ totalReceived` is preserved. -/
theorem totals_spec (s : StoredStats) (l : List (String × JetstreamEvent)) :
    (runStats s l).totalReceived = s.totalReceived + l.length ∧
    (runStats s l).totalEvents =
      s.totalEvents + l.countP (fun p => p.2.kind == Kind.commit) ∧
    (s.totalEvents ≤ s.totalReceived →
      (runStats s l).totalEvents ≤ (runStats s l).totalReceived) := by
  induction l generalizing s with
  | nil => simp [runStats]
  | cons p rest ih =>
      obtain ⟨now, e⟩ := p
      obtain ⟨ih1, ih2, ih3⟩ := ih (processEventStats now s e)
      refine ⟨?_, ?_, ?_⟩
      · simp only [runStats, List.length_cons]
        rw [ih1, processEventStats_totalReceived]
        omega
      · simp only [runStats, List.countP_cons]
        rw [ih2, processEventStats_totalEvents]
        by_cases hk : e.kind = Kind.commit
        all_goals simp [hk, beq_iff_eq]
        all_goals omega
      · intro h
        simp only [runStats]
        refine ih3 ?_
        rw [processEventStats_totalEvents, processEventStats_totalReceived]
        split <;> omega

/-- C2 (witness): instantiated on the spec's sample scenario of an account
event, a commit, and an identity event, from the zero state. -/
theorem totals_spec_witness :
    (runStats (zeroStats "t0") exSeq).totalReceived =
      (zeroStats "t0").totalReceived + exSeq.length ∧
    (runStats (zeroStats "t0") exSeq).totalEvents ≤
      (runStats (zeroStats "t0") exSeq).totalReceived :=
  ⟨(totals_spec (zeroStats "t0") exSeq).1,
   (totals_spec (zeroStats "t0") exSeq).2.2 (by decide)⟩

/-- C3 (counterexample): a commit event whose `commit.collection` is the empty
string carries a collection field, yet the truthiness guard skips the
`eventCounts` update, so after processing it from the zero state the sum of
`eventCounts` values is 0 while `totalEvents` is 1. -/
theorem eventCounts_sum_counterexample :
    (commitEvent "" 100).kind = Kind.commit ∧
    ((commitEvent "" 100).commit.map (fun cm => cm.collection)) = some "" ∧
    sumCounts (runStats (zeroStats "t0") [("t1", commitEvent "" 100)]).eventCounts = 0 ∧
    (runStats (zeroStats "t0") [("t1", commitEvent "" 100)]).totalEvents = 1 := by
  decide

/-- C3 (amended): from the zero state, for every nonempty collection name `c`,
`eventCounts[c]` equals the number of commit events whose `commit.collection`
is `c`; and whenever every commit event in the sequence carries a nonempty
collection, the sum of all `eventCounts` values equals `totalEvents`. -/
theorem eventCounts_spec (l : List (String × JetstreamEvent)) (t0 : String) :
    (∀ c, c ≠ "" →
      getCount (runStats (zeroStats t0) l).eventCounts c = countCommitsTo c l) ∧
    ((∀ p ∈ l, p.2.kind = Kind.commit → hasNonemptyCollection p.2 = true) →
      sumCounts (runStats (zeroStats t0) l).eventCounts =
        (runStats (zeroStats t0) l).totalEvents) := by
  constructor
  · intro c hc
    have h := runStats_getCount (zeroStats t0) l c hc
    simpa [zeroStats, getCount] using h
  · intro hl
    exact runStats_sum_totalEvents l (zeroStats t0) hl (by simp [zeroStats, sumCounts])

/-- C3 (witness): instantiated on the spec's sample scenario, whose single
commit goes to the nonempty collection `blue.2048.game`. -/
theorem eventCounts_spec_witness :
    getCount (runStats (zeroStats "t0") exSeq).eventCounts "blue.2048.game" =
      countCommitsTo "blue.2048.game" exSeq ∧
    sumCounts (runStats (zeroStats "t0") exSeq).eventCounts =
      (runStats (zeroStats "t0") exSeq).totalEvents :=
  ⟨(eventCounts_spec exSeq "t0").1 "blue.2048.game" (by decide),
   (eventCounts_spec exSeq "t0").2 (by decide)⟩

/-- C4: the subscribe URL built by `connectToJetstream` carries a cursor query
parameter exactly when the stored cursor is positive, and that parameter is
the stored cursor minus 5,000,000 microseconds — for every stored cursor,
including values between 1 and 5,000,000 (where the result is negative). -/
theorem cursorParam_spec (c : Int) :
    (0 < c → cursorParam c = some (c - 5000000)) ∧
    (c = 0 → cursorParam c = none) := by
  constructor
  · intro h
    simp [cursorParam, h]
  · intro h
    simp [cursorParam, h]

/-- C4 (witness): instantiated at a stored cursor of 3 (between 1 and
5,000,000) and at 0. -/
theorem cursorParam_spec_witness :
    cursorParam 3 = some (3 - 5000000) ∧ cursorParam 0 = none :=
  ⟨(cursorParam_spec 3).1 (by decide), (cursorParam_spec 0).2 rfl⟩

/-- C5: in the queue consumer, a message is acknowledged exactly when the
webhook POST for its event returned an HTTP 2xx status (any non-2xx status or
transport error yields retry), and the action taken for a message depends only
on that message's own webhook outcome, never on its siblings in the batch. -/
theorem queue_ack_iff (batch : List WebhookOutcome) (i : Nat) :
    ((processBatch batch)[i]? = some MsgAction.ack ↔
      ∃ code, batch[i]? = some (WebhookOutcome.httpStatus code) ∧
        responseOk code = true) ∧
    (∀ batch₂ : List WebhookOutcome, batch[i]? = batch₂[i]? →
      (processBatch batch)[i]? = (processBatch batch₂)[i]?) := by
  constructor
  · simp only [processBatch, List.getElem?_map]
    cases hb : batch[i]? with
    | none => simp
    | some o =>
        simp only [Option.map_some', Option.some.injEq]
        exact handleMessage_eq_ack o
  · intro batch₂ hb
    simp only [processBatch, List.getElem?_map, hb]

/-- C5 (witness): a batch whose first message got HTTP 200 and second got HTTP
500; the first is acknowledged, and the second's action is unchanged when the
first message's outcome is replaced by a transport error. -/
theorem queue_ack_iff_witness :
    (processBatch [WebhookOutcome.httpStatus 200, WebhookOutcome.httpStatus 500])[0]? =
      some MsgAction.ack ∧
    (processBatch [WebhookOutcome.httpStatus 200, WebhookOutcome.httpStatus 500])[1]? =
      (processBatch [WebhookOutcome.transportError, WebhookOutcome.httpStatus 500])[1]? :=
  ⟨(queue_ack_iff [WebhookOutcome.httpStatus 200, WebhookOutcome.httpStatus 500] 0).1.mpr
      ⟨200, by decide, by decide⟩,
   (queue_ack_iff [WebhookOutcome.httpStatus 200, WebhookOutcome.httpStatus 500] 1).2
      [WebhookOutcome.transportError, WebhookOutcome.httpStatus 500] (by decide)⟩

/-- C6: when the enqueue of a commit event fails, `processEvent` keeps every
stats update already made for that event (cursor, totalReceived, totalEvents,
lastEventTime, eventCounts), the event is not enqueued by the producer, and
processing of any subsequent events yields exactly the same stats as if the
enqueue had succeeded. -/
theorem enqueue_failure_no_rollback (st : ProcState) (now : String)
    (e : JetstreamEvent) (l : List (Bool × String × JetstreamEvent)) :
    (processEvent false now st e).stats = processEventStats now st.stats e ∧
    (processEvent false now st e).queued = st.queued ∧
    (runProc (processEvent false now st e) l).stats =
      (runProc (processEvent true now st e) l).stats := by
  refine ⟨processEvent_stats false now st e, processEvent_queued_false now st e, ?_⟩
  rw [runProc_stats, runProc_stats, processEvent_stats, processEvent_stats]

/-- C7: `resetStats` replaces the stats with zero values regardless of prior
state (cursor, totalEvents, totalReceived all 0 and eventCounts empty), writes
that same record to storage immediately, and a second reset produces the same
stats as a single reset from any state (idempotence). -/
theorem resetStats_spec (st st₂ : ProcState) (now now₂ : String) :
    (resetStats now st).stats.cursor = 0 ∧
    (resetStats now st).stats.totalEvents = 0 ∧
    (resetStats now st).stats.totalReceived = 0 ∧
    (resetStats now st).stats.eventCounts = [] ∧
    (resetStats now st).stored = (resetStats now st).stats ∧
    (resetStats now₂ (resetStats now st)).stats = (resetStats now₂ st₂).stats :=
  ⟨rfl, rfl, rfl, rfl, rfl, rfl⟩

/-- C8: the request actually assembled by `sendToWebhook` is a POST of the
serialized event to the hardcoded URL with exactly the `Content-Type` and
`User-Agent` headers — in particular it contains no `Authorization` header,
contradicting the documented bearer-token behavior whenever a token is
configured. -/
theorem sendToWebhook_request_shape :
    (sendToWebhookRequest "eventJson").method = "POST" ∧
    (sendToWebhookRequest "eventJson").url =
      "https://doingtunnel.doing.work/api/webhooks/jetstream-event" ∧
    (sendToWebhookRequest "eventJson").body = "eventJson" ∧
    (sendToWebhookRequest "eventJson").headers =
      [("Content-Type", "application/json"),
       ("User-Agent", "Jetstream-Unified/1.0")] :=
  ⟨rfl, rfl, rfl, rfl⟩

/-- C9: for every random draw `r` with `0 ≤ r < 1`, the reconnect delay
`min(1000 * 2^r, 30000)` never selects the 30000 ms cap and lies in the
half-open interval from 1000 ms (inclusive) to 2000 ms (exclusive). -/
theorem reconnectDelay_bounds (r : ℝ) (h0 : 0 ≤ r) (h1 : r < 1) :
    reconnectDelay r = 1000 * (2 : ℝ) ^ r ∧
    1000 ≤ reconnectDelay r ∧ reconnectDelay r < 2000 := by
  have h2 : (1 : ℝ) ≤ (2 : ℝ) ^ r := by
    have hx : (2 : ℝ) ^ (0 : ℝ) ≤ (2 : ℝ) ^ r :=
      (Real.rpow_le_rpow_left_iff (by norm_num)).mpr h0
    simpa using hx
  have h3 : (2 : ℝ) ^ r < 2 := by
    have hx : (2 : ℝ) ^ r < (2 : ℝ) ^ (1 : ℝ) :=
      (Real.rpow_lt_rpow_left_iff (by norm_num)).mpr h1
    simpa [Real.rpow_one] using hx
  have hmin : 1000 * (2 : ℝ) ^ r ≤ 30000 := by nlinarith
  refine ⟨min_eq_left hmin, ?_, ?_⟩
  · rw [reconnectDelay, min_eq_left hmin]
    nlinarith
  · rw [reconnectDelay, min_eq_left hmin]
    nlinarith

/-- C9 (witness): instantiated at the draw `r = 0`, where the delay is
exactly 1000 ms. -/
theorem reconnectDelay_bounds_witness :
    reconnectDelay 0 = 1000 * (2 : ℝ) ^ (0 : ℝ) ∧
    1000 ≤ reconnectDelay 0 ∧ reconnectDelay 0 < 2000 :=
  reconnectDelay_bounds 0 le_rfl (by norm_num)

/-- C10: a commit event whose `commit.collection` is the empty string bumps
`totalEvents` and sets `lastEventTime` but leaves `eventCounts` untouched (the
truthiness guard treats the empty string as absent); consequently, the sum of
`eventCounts` values can be strictly below `totalEvents` even though every
commit carried a collection field. -/
theorem emptyCollection_commit (s : StoredStats) (now : String)
    (e : JetstreamEvent) (cm : Commit) (h1 : e.kind = Kind.commit)
    (h2 : e.commit = some cm) (h3 : cm.collection = "") :
    (processEventStats now s e).eventCounts = s.eventCounts ∧
    (processEventStats now s e).totalEvents = s.totalEvents + 1 ∧
    (processEventStats now s e).lastEventTime = now ∧
    sumCounts (processEventStats "t" (zeroStats "z") (commitEvent "" 1)).eventCounts <
      (processEventStats "t" (zeroStats "z") (commitEvent "" 1)).totalEvents := by
  refine ⟨?_, ?_, ?_, by decide⟩ <;> simp [processEventStats, h1, h2, h3]

/-- C10 (witness): instantiated on a concrete commit event with an
empty-string collection, processed over the zero state. -/
theorem emptyCollection_commit_witness :
    (processEventStats "t1" (zeroStats "t0") (commitEvent "" 100)).eventCounts =
      (zeroStats "t0").eventCounts ∧
    (processEventStats "t1" (zeroStats "t0") (commitEvent "" 100)).totalEvents =
      (zeroStats "t0").totalEvents + 1 ∧
    (processEventStats "t1" (zeroStats "t0") (commitEvent "" 100)).lastEventTime = "t1" ∧
    sumCounts (processEventStats "t" (zeroStats "z") (commitEvent "" 1)).eventCounts <
      (processEventStats "t" (zeroStats "z") (commitEvent "" 1)).totalEvents :=
  emptyCollection_commit (zeroStats "t0") "t1" (commitEvent "" 100) _ rfl rfl rfl

end DoingJetstream
